import Mathlib

/-!
Verification of the LLM orchestration core of the LLMFusion repository.

The repository contains two variants of the orchestration controller:
* `backend/controllers/mlcontroler.js` — suffix `ML` below;
* a second controller file with the same exported names — suffix `P3` below.

Effects are made explicit: network outcomes, the random draw of
`Math.random()` (a rational `r` with `0 ≤ r < 1`), and the response cache are
parameters and results of the embedded functions.
-/

namespace LLMFusion

/-- One successful model response: `(model id, generated text)`.  The `P3`
variant also stores an arrival timestamp; no claim observes it. -/
structure Candidate where
  model : String
  content : String
deriving DecidableEq, Inhabited

/-- The fixed model registry `MODEL_LIST` (identical in both controller files). -/
def MODEL_LIST : List String :=
  ["meta/llama3-70b-instruct", "google/gemma-7b",
   "deepseek-ai/deepseek-r1-distill-llama-8b"]

/-- First maximal run of ASCII digits in a character list, as matched by the
regular expression `\d+` (leftmost match, then greedy). -/
def firstDigitRun : List Char → Option (List Char)
  | [] => none
  | c :: rest =>
      if c.isDigit then some (c :: rest.takeWhile Char.isDigit)
      else firstDigitRun rest

/-- `parseInt` on a non-empty string of ASCII digits. -/
def digitsToNat (ds : List Char) : Nat :=
  ds.foldl (fun acc c => 10 * acc + (c.toNat - 48)) 0

/-- `Math.floor(Math.random() * candidateCount)`: the random draw
`r ∈ [0,1)` is an explicit parameter. -/
def randomIndex (r : ℚ) (candidateCount : Nat) : ℤ :=
  ⌊r * candidateCount⌋

/-- `parseBestIndex` from `mlcontroler.js`: extract the first run of digits
with `/\d+/`, `parseInt` it, clamp into `[0, candidateCount-1]`; if the text
has no digits, the thrown error is caught and a uniformly random index is
returned. -/
def parseBestIndexML (text : String) (candidateCount : Nat) (r : ℚ) : ℤ :=
  match firstDigitRun text.data with
  | some ds => max 0 (min (digitsToNat ds : ℤ) ((candidateCount : ℤ) - 1))
  | none => randomIndex r candidateCount

/-- The characters removed by `replace(/["']/g, "")`. -/
def isQuoteChar (c : Char) : Bool :=
  c == Char.ofNat 34 || c == Char.ofNat 39

/-- The left-to-right scan of `replace(/option/gi, "")`, structurally
recursive on a fuel argument so that it evaluates by kernel reduction; the
fuel is the length of the list, which bounds the number of steps. -/
def stripOptionGo : Nat → List Char → List Char
  | 0, l => l
  | _ + 1, [] => []
  | fuel + 1, c :: rest =>
      if ((c :: rest).take 6).map Char.toLower == ['o', 'p', 't', 'i', 'o', 'n'] then
        stripOptionGo fuel (rest.drop 5)
      else
        c :: stripOptionGo fuel rest

/-- `replace(/option/gi, "")`: delete every case-insensitive occurrence of the
six-letter word option, scanning left to right, non-overlapping. -/
def stripOptionWord (l : List Char) : List Char :=
  stripOptionGo l.length l

/-- JavaScript `String.prototype.trim`: drop whitespace from both ends. -/
def jsTrim (s : List Char) : List Char :=
  ((s.dropWhile Char.isWhitespace).reverse.dropWhile Char.isWhitespace).reverse

/-- The `cleanText` computed by the `P3` `parseBestIndex`: remove quote
characters, remove the word option case-insensitively, trim. -/
def cleanJudgeText (text : String) : List Char :=
  jsTrim (stripOptionWord (text.data.filter (fun c => !isQuoteChar c)))

/-- `parseBestIndex` from the `P3` controller: after cleaning, the whole
remaining text must be digits (`/^\d+$/`); then `parseInt` and clamp into
`[0, candidateCount-1]`.  Otherwise the thrown error is caught and a uniformly
random index is returned. -/
def parseBestIndexP3 (text : String) (candidateCount : Nat) (r : ℚ) : ℤ :=
  let clean := cleanJudgeText text
  if !clean.isEmpty && clean.all Char.isDigit then
    max 0 (min (digitsToNat clean : ℤ) ((candidateCount : ℤ) - 1))
  else randomIndex r candidateCount

/-! ## Response cache and model invokers -/

/-- The process-wide `modelCache` Map, modelled as an association list;
`cacheGet` returns the value of the first matching key.  The value type is a
parameter: the `P3` cache only ever holds strings, while the
`mlcontroler.js` cache can also hold the JavaScript `undefined` value
(`Option String` with `none` for `undefined`). -/
def cacheGet {α : Type} : List (String × α) → String → Option α
  | [], _ => none
  | (k, v) :: rest, key => if k == key then some v else cacheGet rest key

/-- `Map.set`: replace the value of an existing key in place, else append. -/
def cacheSet {α : Type} : List (String × α) → String → α → List (String × α)
  | [], key, val => [(key, val)]
  | (k, v) :: rest, key, val =>
      if k == key then (key, val) :: rest else (k, v) :: cacheSet rest key val

/-- UTF-8 encoding of one code point, as `Buffer.from(prompt)` produces. -/
def utf8Bytes (c : Char) : List Nat :=
  let n := c.toNat
  if n < 128 then [n]
  else if n < 2048 then [192 + n / 64, 128 + n % 64]
  else if n < 65536 then [224 + n / 4096, 128 + (n / 64) % 64, 128 + n % 64]
  else [240 + n / 262144, 128 + (n / 4096) % 64, 128 + (n / 64) % 64, 128 + n % 64]

/-- The base64url alphabet: A-Z, a-z, 0-9, minus, underscore. -/
def b64Char (n : Nat) : Char :=
  if n < 26 then Char.ofNat (65 + n)
  else if n < 52 then Char.ofNat (97 + (n - 26))
  else if n < 62 then Char.ofNat (48 + (n - 52))
  else if n = 62 then Char.ofNat 45
  else Char.ofNat 95

/-- base64url encoding of a byte list, three bytes to four characters, no
padding characters. -/
def b64Chunks : List Nat → List Char
  | [] => []
  | [a] => [b64Char (a / 4), b64Char (a % 4 * 16)]
  | [a, b] => [b64Char (a / 4), b64Char (a % 4 * 16 + b / 16), b64Char (b % 16 * 4)]
  | a :: b :: c :: rest =>
      b64Char (a / 4) :: b64Char (a % 4 * 16 + b / 16) :: b64Char (b % 16 * 4 + c / 64) ::
        b64Char (c % 64) :: b64Chunks rest

/-- `Buffer.from(prompt).toString('base64url')`. -/
def base64url (s : String) : String :=
  String.mk (b64Chunks (s.data.foldr (fun c acc => utf8Bytes c ++ acc) []))

/-- The cache key of the `P3` `callModel` and of `generateWithNvidia`. -/
def cacheKeyB64 (model prompt : String) : String :=
  model ++ "-" ++ base64url prompt

/-- The cache key of the `ML` `callModel`: plain concatenation. -/
def cacheKeyML (model prompt : String) : String :=
  model ++ "-" ++ prompt

/-- Outcome of one network attempt against a chat-completion backend.
`fail` covers a rejected fetch (network error, or abort by the timeout
controller) and a non-2xx status (the thrown message built from status and
body).  For a 2xx JSON body, `badChain` means the property chain breaks at
or before `message` (`data.choices`, `choices[0]` or `message` missing —
the unguarded access in `mlcontroler.js` throws a TypeError there), while
`payload content` means `choices[0].message` exists, with `content = none`
when the `content` field itself is absent (its value is `undefined`). -/
inductive NetResult where
  | fail (message : String)
  | badChain
  | payload (content : Option String)

/-- `callModel` from the `P3` controller: cache lookup first (hit returns with
no network attempt); on a miss one network attempt.  The guard uses optional
chaining, `!data?.choices?.[0]?.message?.content`, so a broken chain, a
missing `content` and an empty (falsy) `content` all raise the same invalid
format error; a successful result is stored in the cache before returning.
Result: (value or error, cache after the call, network attempts made). -/
def callModelP3 (net : NetResult) (cache : List (String × String))
    (model prompt : String) : Except String String × List (String × String) × Nat :=
  match cacheGet cache (cacheKeyB64 model prompt) with
  | some v => (.ok v, cache, 0)
  | none =>
      match net with
      | .fail msg => (.error msg, cache, 1)
      | .badChain => (.error "Invalid response format from model", cache, 1)
      | .payload none => (.error "Invalid response format from model", cache, 1)
      | .payload (some content) =>
          if content == "" then (.error "Invalid response format from model", cache, 1)
          else (.ok content, cacheSet cache (cacheKeyB64 model prompt) content, 1)

/-- `callModel` from `mlcontroler.js`: plain cache key.  The unguarded
access `data.choices[0].message.content` throws a TypeError (rethrown by the
catch block) only when the chain breaks at or before `message`; when
`message` exists, a missing `content` is simply `undefined`, and
`modelCache.set(cacheKey, result)` runs on whatever `result` is — the
`undefined` value included — before it is returned as a fulfillment. -/
def callModelML (net : NetResult) (cache : List (String × Option String))
    (model prompt : String) :
    Except String (Option String) × List (String × Option String) × Nat :=
  match cacheGet cache (cacheKeyML model prompt) with
  | some v => (.ok v, cache, 0)
  | none =>
      match net with
      | .fail msg => (.error msg, cache, 1)
      | .badChain => (.error "TypeError: cannot read properties of undefined", cache, 1)
      | .payload content => (.ok content, cacheSet cache (cacheKeyML model prompt) content, 1)

/-- `generateWithNvidia` from `mlcontroler.js`: base64url cache key, 30s
timeout.  Like the `ML` `callModel`, the unguarded access
`data.choices[0].message.content` throws only when the chain breaks at or
before `message`; with `message` present and `content` absent, the
`undefined` result is cached and returned as a fulfillment. -/
def generateWithNvidia (net : NetResult) (cache : List (String × Option String))
    (modelId prompt : String) :
    Except String (Option String) × List (String × Option String) × Nat :=
  match cacheGet cache (cacheKeyB64 modelId prompt) with
  | some v => (.ok v, cache, 0)
  | none =>
      match net with
      | .fail msg => (.error msg, cache, 1)
      | .badChain => (.error "TypeError: cannot read properties of undefined", cache, 1)
      | .payload content => (.ok content, cacheSet cache (cacheKeyB64 modelId prompt) content, 1)

/-! ## Retry wrapper -/

/-- `JUDGE_CONFIG.retryDelay` in the `P3` controller and the literal `2000` in
the `ML` retry loop (milliseconds). -/
def retryDelay : Nat := 2000

/-- The `for` loop of the `P3` `callModelWithRetry`, at loop index `attempt`,
with `remaining = retries - attempt` further iterations allowed.  The network
outcome of each attempt comes from the oracle `net`.  Returns (result, final
cache, number of attempts performed, delays waited between attempts). -/
def retryGoP3 (net : Nat → NetResult) (model prompt : String) :
    Nat → Nat → List (String × String) →
      Except String String × List (String × String) × Nat × List Nat
  | attempt, remaining, cache =>
      match callModelP3 (net attempt) cache model prompt, remaining with
      | (.ok v, cache1, _), _ => (.ok v, cache1, 1, [])
      | (.error e, cache1, _), 0 => (.error e, cache1, 1, [])
      | (.error _, cache1, _), remaining0 + 1 =>
          match retryGoP3 net model prompt (attempt + 1) remaining0 cache1 with
          | (res, cache2, n, ds) => (res, cache2, n + 1, retryDelay * (attempt + 1) :: ds)

/-- `callModelWithRetry` from the `P3` controller: attempts
`callModel` for `attempt = 0 .. retries`; on failure of attempt
`attempt < retries` it waits `retryDelay * (attempt + 1)` and retries; the
failure of the last attempt is rethrown. -/
def callModelWithRetry (net : Nat → NetResult) (cache : List (String × String))
    (model prompt : String) (retries : Nat) :
    Except String String × List (String × String) × Nat × List Nat :=
  retryGoP3 net model prompt 0 retries cache

/-- The same loop in `mlcontroler.js` (identical except for logging), wrapping
the `ML` `callModel`.  A fulfillment — the `undefined` value included — is
returned at once; only a thrown error is retried. -/
def retryGoML (net : Nat → NetResult) (model prompt : String) :
    Nat → Nat → List (String × Option String) →
      Except String (Option String) × List (String × Option String) × Nat × List Nat
  | attempt, remaining, cache =>
      match callModelML (net attempt) cache model prompt, remaining with
      | (.ok v, cache1, _), _ => (.ok v, cache1, 1, [])
      | (.error e, cache1, _), 0 => (.error e, cache1, 1, [])
      | (.error _, cache1, _), remaining0 + 1 =>
          match retryGoML net model prompt (attempt + 1) remaining0 cache1 with
          | (res, cache2, n, ds) => (res, cache2, n + 1, retryDelay * (attempt + 1) :: ds)

/-- `callModelWithRetry` from `mlcontroler.js` (the judge route passes
`retries = 2`). -/
def callModelWithRetryML (net : Nat → NetResult) (cache : List (String × Option String))
    (model prompt : String) (retries : Nat) :
    Except String (Option String) × List (String × Option String) × Nat × List Nat :=
  retryGoML net model prompt 0 retries cache

/-- The delays a fully failing retry loop waits, starting at loop index
`attempt` with `remaining` retries left. -/
def expectedDelays (attempt : Nat) : Nat → List Nat
  | 0 => []
  | rem + 1 => retryDelay * (attempt + 1) :: expectedDelays (attempt + 1) rem

/-! ## Fan-out orchestrator -/

/-- `JUDGE_CONFIG.maxRetries` in the `P3` controller. -/
def maxRetries : Nat := 3

/-- `getModelResponses` from the `P3` controller.  `Promise.allSettled` over
one retrying call per model of `MODEL_LIST` yields results in registry order
regardless of completion order, so the `(result, idx)` mapping is a
`filterMap` over the registry: a fulfilled result becomes a candidate, a
rejected one is logged and dropped, and candidates whose content is shorter
than 20 characters are filtered out.  `net model attempt` is the network
outcome of the given attempt against the given model. -/
def getModelResponses (prompt : String) (net : String → Nat → NetResult)
    (cache : List (String × String)) : List Candidate :=
  (MODEL_LIST.filterMap fun model =>
      match (callModelWithRetry (net model) cache model prompt maxRetries).1 with
      | .ok v => some ⟨model, v⟩
      | .error _ => none).filter fun c => 20 ≤ c.content.length

/-- The fan-out inside the `ML` `judgeAndGenerate` (retries = 2): a fulfilled
result becomes a candidate only if its value is truthy — `undefined` and the
empty string are falsy and are dropped along with the `null` entries of
failed models by the `filter(Boolean)`. -/
def candidatesML (prompt : String) (net : String → Nat → NetResult)
    (cache : List (String × Option String)) : List Candidate :=
  MODEL_LIST.filterMap fun model =>
    match (callModelWithRetryML (net model) cache model prompt 2).1 with
    | .ok none => none
    | .ok (some v) => if v == "" then none else some ⟨model, v⟩
    | .error _ => none

/-! ## Judge selector -/

/-- JavaScript `trim` on a `String`. -/
def jsTrimS (s : String) : String :=
  String.mk (jsTrim s.data)

/-- The evaluation prompt built by the `P3` `judgeResponses` (texts truncated
to 200 characters).  With an empty candidate list the JavaScript header would
show `0--1`; the judge is only consulted on a non-empty list. -/
def judgePromptP3 (prompt : String) (cands : List Candidate) : String :=
  "Select the best response (0-" ++ toString (cands.length - 1) ++ ") for: \x22"
    ++ prompt ++ "\x22\n\n"
    ++ String.intercalate "\n\n"
        (cands.enum.map fun ic =>
          "OPTION " ++ toString ic.1 ++ ":\n" ++ ic.2.content.take 200)
    ++ "\n\nReply ONLY with the number."

/-- The evaluation prompt built by the `ML` `judgeResponses` (texts truncated
to 150 characters). -/
def judgePromptML (prompt : String) (cands : List Candidate) : String :=
  "STRICTLY REPLY WITH 0, 1, or 2 ONLY. \nWhich response best answers: \x22"
    ++ prompt ++ "\x22?\n\n"
    ++ String.intercalate "\n\n"
        (cands.enum.map fun ic =>
          "=== OPTION " ++ toString ic.1 ++ " ===\n" ++ ic.2.content.take 150 ++ "...")

/-- `weightedRandomSelect` from the `P3` controller: despite its name, simply
the first candidate (the comment in the source says so). -/
def weightedRandomSelect (cands : List Candidate) : Candidate :=
  cands.getD 0 default

/-- `judgeResponses` from the `P3` controller.  The oracle maps the judge
request prompt to the network outcome: an error for a failed, timed-out or
non-ok call, otherwise the optional reply text found at
`data.candidates[0].content.parts[0].text` (the `|| ''` turns a missing text
into the empty string).  Any caught failure falls back to
`weightedRandomSelect`. -/
def judgeResponsesP3 (prompt : String) (cands : List Candidate)
    (oracle : String → Except String (Option String)) (r : ℚ) : Candidate :=
  match oracle (judgePromptP3 prompt cands) with
  | .ok payload =>
      cands.getD (parseBestIndexP3 (payload.getD "") cands.length r).toNat default
  | .error _ => weightedRandomSelect cands

/-- `judgeResponses` from `mlcontroler.js`: same shape, but the caught
failure falls back to a uniformly random candidate; the draw `r` feeds both
the parse fallback and the catch fallback. -/
def judgeResponsesML (prompt : String) (cands : List Candidate)
    (oracle : String → Except String (Option String)) (r : ℚ) : Candidate :=
  match oracle (judgePromptML prompt cands) with
  | .ok payload =>
      cands.getD (parseBestIndexML (payload.getD "") cands.length r).toNat default
  | .error _ => cands.getD (randomIndex r cands.length).toNat default

/-! ## Request coordinators -/

/-- The JSON response assembled by a judge-route controller. -/
structure JudgeEnvelope where
  status : Nat
  errMsg : Option String
  bestResponse : Option String
  chosenModel : Option String
  candidateIds : Option (List String)
deriving DecidableEq

/-- Externally observable work performed by a controller, in program order. -/
inductive Effect where
  | fanout
  | judgeToken
  | judgeCall
  | analysisToken
  | analysisCall
  | modelToken
  | generateCall
deriving DecidableEq

/-- `judgeAndGenerate` from the `P3` controller, as a function of the request
body prompt (`none` = field absent), the per-model network oracle, the
starting cache, the judge oracle and the random draw.  `!prompt?.trim()`
rejects an absent prompt and a whitespace-only prompt.  Returns the envelope
and the effects performed, in order. -/
def judgeAndGenerateP3 (prompt? : Option String)
    (net : String → Nat → NetResult) (cache : List (String × String))
    (oracle : String → Except String (Option String)) (r : ℚ) :
    JudgeEnvelope × List Effect :=
  match prompt? with
  | none =>
      ({ status := 400, errMsg := some "Non-empty prompt is required",
         bestResponse := none, chosenModel := none, candidateIds := none }, [])
  | some prompt =>
      if jsTrimS prompt == "" then
        ({ status := 400, errMsg := some "Non-empty prompt is required",
           bestResponse := none, chosenModel := none, candidateIds := none }, [])
      else
        let candidates := getModelResponses prompt net cache
        if candidates.isEmpty then
          ({ status := 503, errMsg := some "All model providers failed",
             bestResponse := none, chosenModel := none, candidateIds := none },
           [.fanout])
        else
          let best := judgeResponsesP3 prompt candidates oracle r
          ({ status := 200, errMsg := none, bestResponse := some best.content,
             chosenModel := some best.model,
             candidateIds := some (candidates.map Candidate.model) },
           [.fanout, .judgeToken, .judgeCall])

/-- `judgeAndGenerate` from `mlcontroler.js`.  Its validation is
`if (!prompt)`: only an absent or empty prompt is rejected — a
whitespace-only prompt is truthy and proceeds to the fan-out.  An empty
candidate list yields a 500, not a 503. -/
def judgeAndGenerateML (prompt? : Option String)
    (net : String → Nat → NetResult) (cache : List (String × Option String))
    (oracle : String → Except String (Option String)) (r : ℚ) :
    JudgeEnvelope × List Effect :=
  match prompt? with
  | none =>
      ({ status := 400, errMsg := some "Prompt is required",
         bestResponse := none, chosenModel := none, candidateIds := none }, [])
  | some prompt =>
      if prompt == "" then
        ({ status := 400, errMsg := some "Prompt is required",
           bestResponse := none, chosenModel := none, candidateIds := none }, [])
      else
        let candidates := candidatesML prompt net cache
        if candidates.isEmpty then
          ({ status := 500, errMsg := some "All model calls failed",
             bestResponse := none, chosenModel := none, candidateIds := none },
           [.fanout])
        else
          let best := judgeResponsesML prompt candidates oracle r
          ({ status := 200, errMsg := none, bestResponse := some best.content,
             chosenModel := some best.model,
             candidateIds := some (candidates.map Candidate.model) },
           [.fanout, .judgeCall])

/-! ## Heuristic selector and the analyze-select-generate route -/

/-- The benchmark profile of one `EXPERT_MODELS` entry.  Numeric literals are
read as exact decimals. -/
structure Benchmarks where
  reasoning : ℚ
  coding : ℚ
  math : ℚ
  context : ℚ
  speed : Option ℚ := none
  efficiency : Option ℚ := none
deriving DecidableEq

/-- The fixed `EXPERT_MODELS` registry, in object-literal declaration order
(the order `Object.entries` iterates). -/
def EXPERT_MODELS : List (String × Benchmarks) :=
  [("meta/llama3-70b-instruct",
     { reasoning := 92.1, coding := 84.3, math := 88.7, context := 128000 }),
   ("google/gemma-7b",
     { reasoning := 85.4, coding := 89.2, math := 82.1, context := 8192,
       speed := some 214 }),
   ("deepseek-ai/deepseek-r1-distill-llama-8b",
     { reasoning := 91.6, coding := 94.2, math := 93.4, context := 128000,
       efficiency := some 4.8 })]

/-- The four-field requirements vector produced by the analysis step. -/
structure Requirements where
  coding : ℚ
  reasoning : ℚ
  math : ℚ
  context : ℚ
deriving DecidableEq

/-- `analyzeWithGemini`: the network and JSON-parsing work is an oracle; any
caught failure (non-ok status, abort, unparseable reply) yields the neutral
default vector with every field 50. -/
def analyzeWithGemini (outcome : Except String Requirements) : Requirements :=
  match outcome with
  | .ok reqs => reqs
  | .error _ => { coding := 50, reasoning := 50, math := 50, context := 50 }

/-- The weighted score `selectOptimalModel` computes for one model:
`coding*(req.coding/100) + reasoning*(req.reasoning/100) +
math*(req.math/100) + min(req.context/cap, 1) * 25`, where `cap` is
`benchmarks.context || 4096` (0 is the falsy numeric value). -/
def modelScore (req : Requirements) (m : Benchmarks) : ℚ :=
  m.coding * (req.coding / 100) + m.reasoning * (req.reasoning / 100) +
    m.math * (req.math / 100) +
    min (req.context / (if m.context = 0 then 4096 else m.context)) 1 * 25

/-- One step of the `forEach` accumulation over `(bestScore, bestModel)`,
which starts from `(-Infinity, null)` — modelled as `none`, which any real
score beats.  Only a strictly greater score replaces the incumbent. -/
def selectStep (req : Requirements) (acc : Option (ℚ × String))
    (entry : String × Benchmarks) : Option (ℚ × String) :=
  match acc with
  | none => some (modelScore req entry.2, entry.1)
  | some (bestScore, bestModel) =>
      if modelScore req entry.2 > bestScore then some (modelScore req entry.2, entry.1)
      else some (bestScore, bestModel)

/-- `selectOptimalModel` over an arbitrary registry: the fold, then
`bestModel || 'meta/llama3-70b-instruct'` (null only when the registry is
empty). -/
def selectOptimalModelOver (registry : List (String × Benchmarks))
    (req : Requirements) : String :=
  match registry.foldl (selectStep req) none with
  | some (_, bestModel) => bestModel
  | none => "meta/llama3-70b-instruct"

/-- `selectOptimalModel` from `mlcontroler.js`, over `EXPERT_MODELS`. -/
def selectOptimalModel (req : Requirements) : String :=
  selectOptimalModelOver EXPERT_MODELS req

/-- The JSON response assembled by `llmController`. -/
structure SelectEnvelope where
  status : Nat
  response : Option String
  modelId : Option String
  analysis : Option Requirements
  errMsg : Option String
deriving DecidableEq

/-- `llmController` from `mlcontroler.js`: validate the prompt
(`!prompt?.trim()`), consume an analysis token, analyze, select, consume a
generation token, generate with the chosen model only, assemble the
envelope; any thrown error becomes a 500.  Returns the envelope, the cache
after the request and the effects performed, in order. -/
def llmController (prompt? : Option String)
    (analysisOut : Except String Requirements) (genNet : NetResult)
    (cache : List (String × Option String)) :
    SelectEnvelope × List (String × Option String) × List Effect :=
  match prompt? with
  | none =>
      ({ status := 400, response := none, modelId := none, analysis := none,
         errMsg := some "Prompt required" }, cache, [])
  | some prompt =>
      if jsTrimS prompt == "" then
        ({ status := 400, response := none, modelId := none, analysis := none,
           errMsg := some "Prompt required" }, cache, [])
      else
        let requirements := analyzeWithGemini analysisOut
        let modelId := selectOptimalModel requirements
        let res := generateWithNvidia genNet cache modelId prompt
        match res.1 with
        | .ok txt =>
            ({ status := 200, response := txt, modelId := some modelId,
               analysis := some requirements, errMsg := none }, res.2.1,
             [.analysisToken, .analysisCall, .modelToken, .generateCall])
        | .error _ =>
            ({ status := 500, response := none, modelId := none, analysis := none,
               errMsg := some "Processing failed" }, res.2.1,
             [.analysisToken, .analysisCall, .modelToken, .generateCall])

/-! ## Theorems -/

theorem randomIndex_range (r : ℚ) (n : Nat) (hn : 1 ≤ n) (h0 : 0 ≤ r) (hr : r < 1) :
    0 ≤ randomIndex r n ∧ randomIndex r n ≤ (n : ℤ) - 1 := by
  unfold randomIndex
  have hnq : (0 : ℚ) < (n : ℚ) := by exact_mod_cast hn
  constructor
  · exact Int.floor_nonneg.mpr (by positivity)
  · have hlt : ⌊r * (n : ℚ)⌋ < (n : ℤ) := by
      apply Int.floor_lt.mpr
      push_cast
      calc r * (n : ℚ) < 1 * (n : ℚ) := by
            exact mul_lt_mul_of_pos_right hr hnq
        _ = (n : ℚ) := one_mul _
    omega

theorem clamp_range (v : ℤ) (n : Nat) (hn : 1 ≤ n) :
    0 ≤ max 0 (min v ((n : ℤ) - 1)) ∧ max 0 (min v ((n : ℤ) - 1)) ≤ (n : ℤ) - 1 := by
  have h1 : (1 : ℤ) ≤ (n : ℤ) := by exact_mod_cast hn
  constructor
  · exact le_max_left 0 _
  · apply max_le
    · omega
    · exact min_le_right _ _

theorem parseBestIndexML_range (text : String) (n : Nat) (r : ℚ)
    (hn : 1 ≤ n) (h0 : 0 ≤ r) (hr : r < 1) :
    0 ≤ parseBestIndexML text n r ∧ parseBestIndexML text n r ≤ (n : ℤ) - 1 := by
  unfold parseBestIndexML
  cases firstDigitRun text.data with
  | some ds => exact clamp_range _ n hn
  | none => exact randomIndex_range r n hn h0 hr

theorem parseBestIndexP3_range (text : String) (n : Nat) (r : ℚ)
    (hn : 1 ≤ n) (h0 : 0 ≤ r) (hr : r < 1) :
    0 ≤ parseBestIndexP3 text n r ∧ parseBestIndexP3 text n r ≤ (n : ℤ) - 1 := by
  unfold parseBestIndexP3
  by_cases hc : (!(cleanJudgeText text).isEmpty && (cleanJudgeText text).all Char.isDigit) = true
  · simp only [hc, if_true]
    exact clamp_range _ n hn
  · simp only [hc, if_false]
    exact randomIndex_range r n hn h0 hr

/-- C1: for every candidate count `n ≥ 1`, every judge reply text, and every
random draw `r ∈ [0,1)`, the index produced by `parseBestIndex` (both
variants) lies in `[0, n-1]`, so selecting `candidates[index]` is never out of
bounds. -/
theorem parseBestIndex_in_range (text : String) (n : Nat) (r : ℚ)
    (hn : 1 ≤ n) (h0 : 0 ≤ r) (hr : r < 1) :
    (0 ≤ parseBestIndexML text n r ∧ parseBestIndexML text n r ≤ (n : ℤ) - 1) ∧
    (0 ≤ parseBestIndexP3 text n r ∧ parseBestIndexP3 text n r ≤ (n : ℤ) - 1) :=
  ⟨parseBestIndexML_range text n r hn h0 hr, parseBestIndexP3_range text n r hn h0 hr⟩

/-- Witness for C1 at the empty reply, two candidates, random draw 1/2. -/
theorem parseBestIndex_in_range_witness :
    (0 ≤ parseBestIndexML "" 2 (1/2) ∧ parseBestIndexML "" 2 (1/2) ≤ (2 : ℤ) - 1) ∧
    (0 ≤ parseBestIndexP3 "" 2 (1/2) ∧ parseBestIndexP3 "" 2 (1/2) ≤ (2 : ℤ) - 1) :=
  parseBestIndex_in_range "" 2 (1/2) (by norm_num) (by norm_num) (by norm_num)

theorem cacheGet_cacheSet {α : Type} (c : List (String × α)) (k : String) (v : α) :
    cacheGet (cacheSet c k v) k = some v := by
  induction c with
  | nil => simp [cacheSet, cacheGet]
  | cons p rest ih =>
      obtain ⟨k1, v1⟩ := p
      by_cases hk : (k1 == k) = true
      · simp [cacheSet, hk, cacheGet]
      · simp [cacheSet, hk, cacheGet, ih]

theorem cacheSet_self {α : Type} (c : List (String × α)) (k : String) (v : α)
    (h : cacheGet c k = some v) : cacheSet c k v = c := by
  induction c with
  | nil => simp [cacheGet] at h
  | cons p rest ih =>
      obtain ⟨k1, v1⟩ := p
      by_cases hk : (k1 == k) = true
      · simp [cacheGet, hk] at h
        simp [cacheSet, hk, h, eq_of_beq hk]


      · simp [cacheGet, hk] at h
        simp [cacheSet, hk, ih h]

theorem callModelP3_hit (net : NetResult) (cache : List (String × String))
    (model prompt v : String)
    (h : cacheGet cache (cacheKeyB64 model prompt) = some v) :
    callModelP3 net cache model prompt = (.ok v, cache, 0) := by
  unfold callModelP3
  rw [h]

theorem generateWithNvidia_hit (net : NetResult) (cache : List (String × Option String))
    (model prompt : String) (v : Option String)
    (h : cacheGet cache (cacheKeyB64 model prompt) = some v) :
    generateWithNvidia net cache model prompt = (.ok v, cache, 0) := by
  unfold generateWithNvidia
  rw [h]

theorem callModelML_hit (net : NetResult) (cache : List (String × Option String))
    (model prompt : String) (v : Option String)
    (h : cacheGet cache (cacheKeyML model prompt) = some v) :
    callModelML net cache model prompt = (.ok v, cache, 0) := by
  unfold callModelML
  rw [h]

theorem callModelP3_ok (net : NetResult) (cache : List (String × String))
    (model prompt t : String)
    (h : (callModelP3 net cache model prompt).1 = .ok t) :
    cacheGet (callModelP3 net cache model prompt).2.1 (cacheKeyB64 model prompt) = some t ∧
    (callModelP3 net cache model prompt).2.2 ≤ 1 := by
  cases hc : cacheGet cache (cacheKeyB64 model prompt) with
  | some v =>
      have e := callModelP3_hit net cache model prompt v hc
      rw [e] at h ⊢
      simp only [Except.ok.injEq] at h
      subst h
      simpa using hc
  | none =>
      cases net with
      | fail msg =>
          have e : callModelP3 (.fail msg) cache model prompt = (.error msg, cache, 1) := by
            unfold callModelP3; rw [hc]
          rw [e] at h
          simp at h
      | badChain =>
          have e : callModelP3 .badChain cache model prompt =
              (.error "Invalid response format from model", cache, 1) := by
            unfold callModelP3; rw [hc]
          rw [e] at h
          simp at h
      | payload content =>
          cases content with
          | none =>
              have e : callModelP3 (.payload none) cache model prompt =
                  (.error "Invalid response format from model", cache, 1) := by
                unfold callModelP3; rw [hc]
              rw [e] at h
              simp at h
          | some c =>
              by_cases he : (c == "") = true
              · have e : callModelP3 (.payload (some c)) cache model prompt =
                    (.error "Invalid response format from model", cache, 1) := by
                  unfold callModelP3; rw [hc]; simp [he]
                rw [e] at h
                simp at h
              · have e : callModelP3 (.payload (some c)) cache model prompt =
                    (.ok c, cacheSet cache (cacheKeyB64 model prompt) c, 1) := by
                  unfold callModelP3; rw [hc]; simp [he]
                rw [e] at h ⊢
                simp only [Except.ok.injEq] at h
                subst h
                simp [cacheGet_cacheSet]

theorem generateWithNvidia_ok (net : NetResult) (cache : List (String × Option String))
    (model prompt : String) (t : Option String)
    (h : (generateWithNvidia net cache model prompt).1 = .ok t) :
    cacheGet (generateWithNvidia net cache model prompt).2.1 (cacheKeyB64 model prompt) = some t ∧
    (generateWithNvidia net cache model prompt).2.2 ≤ 1 := by
  cases hc : cacheGet cache (cacheKeyB64 model prompt) with
  | some v =>
      have e := generateWithNvidia_hit net cache model prompt v hc
      rw [e] at h ⊢
      simp only [Except.ok.injEq] at h
      subst h
      simpa using hc
  | none =>
      cases net with
      | fail msg =>
          have e : generateWithNvidia (.fail msg) cache model prompt = (.error msg, cache, 1) := by
            unfold generateWithNvidia; rw [hc]
          rw [e] at h
          simp at h
      | badChain =>
          have e : generateWithNvidia .badChain cache model prompt =
              (.error "TypeError: cannot read properties of undefined", cache, 1) := by
            unfold generateWithNvidia; rw [hc]
          rw [e] at h
          simp at h
      | payload content =>
          have e : generateWithNvidia (.payload content) cache model prompt =
              (.ok content, cacheSet cache (cacheKeyB64 model prompt) content, 1) := by
            unfold generateWithNvidia; rw [hc]
          rw [e] at h ⊢
          simp only [Except.ok.injEq] at h
          subst h
          simp [cacheGet_cacheSet]

/-- C4: cache idempotence.  If the first invocation of the invoker (either the
`P3` `callModel` over its cache, or `generateWithNvidia` over the
`mlcontroler.js` cache) returns text `t`, then the first invocation made at
most one network attempt, the cache now holds `t` under the (model, prompt)
key, and a second invocation — whatever its network oracle would do —
returns the byte-identical text `t` immediately from the cache, with zero
network attempts and no change to the cache. -/
theorem cache_idempotence (model prompt t : String)
    (cache : List (String × String)) (cacheML : List (String × Option String))
    (net1 net2 : NetResult)
    (h1 : (callModelP3 net1 cache model prompt).1 = .ok t)
    (h2 : (generateWithNvidia net1 cacheML model prompt).1 = .ok (some t)) :
    (callModelP3 net1 cache model prompt).2.2 ≤ 1 ∧
    cacheGet (callModelP3 net1 cache model prompt).2.1 (cacheKeyB64 model prompt) = some t ∧
    callModelP3 net2 (callModelP3 net1 cache model prompt).2.1 model prompt =
      (.ok t, (callModelP3 net1 cache model prompt).2.1, 0) ∧
    (generateWithNvidia net1 cacheML model prompt).2.2 ≤ 1 ∧
    cacheGet (generateWithNvidia net1 cacheML model prompt).2.1 (cacheKeyB64 model prompt)
      = some (some t) ∧
    generateWithNvidia net2 (generateWithNvidia net1 cacheML model prompt).2.1 model prompt =
      (.ok (some t), (generateWithNvidia net1 cacheML model prompt).2.1, 0) := by
  obtain ⟨hs1, hn1⟩ := callModelP3_ok net1 cache model prompt t h1
  obtain ⟨hs2, hn2⟩ := generateWithNvidia_ok net1 cacheML model prompt (some t) h2
  exact ⟨hn1, hs1, callModelP3_hit net2 _ model prompt t hs1,
    hn2, hs2, generateWithNvidia_hit net2 _ model prompt (some t) hs2⟩

/-- Witness for C4: first call on an empty cache with a successful payload,
second call with a failing network oracle still returns the cached text. -/
theorem cache_idempotence_witness :
    (callModelP3 (.payload (some "hello world, nice to meet you"))
        [] "meta/llama3-70b-instruct" "hi").2.2 ≤ 1 ∧
    cacheGet (callModelP3 (.payload (some "hello world, nice to meet you"))
        [] "meta/llama3-70b-instruct" "hi").2.1
      (cacheKeyB64 "meta/llama3-70b-instruct" "hi") = some "hello world, nice to meet you" ∧
    callModelP3 (.fail "network down")
        (callModelP3 (.payload (some "hello world, nice to meet you"))
          [] "meta/llama3-70b-instruct" "hi").2.1 "meta/llama3-70b-instruct" "hi" =
      (.ok "hello world, nice to meet you",
        (callModelP3 (.payload (some "hello world, nice to meet you"))
          [] "meta/llama3-70b-instruct" "hi").2.1, 0) ∧
    (generateWithNvidia (.payload (some "hello world, nice to meet you"))
        [] "meta/llama3-70b-instruct" "hi").2.2 ≤ 1 ∧
    cacheGet (generateWithNvidia (.payload (some "hello world, nice to meet you"))
        [] "meta/llama3-70b-instruct" "hi").2.1
      (cacheKeyB64 "meta/llama3-70b-instruct" "hi")
      = some (some "hello world, nice to meet you") ∧
    generateWithNvidia (.fail "network down")
        (generateWithNvidia (.payload (some "hello world, nice to meet you"))
          [] "meta/llama3-70b-instruct" "hi").2.1 "meta/llama3-70b-instruct" "hi" =
      (.ok (some "hello world, nice to meet you"),
        (generateWithNvidia (.payload (some "hello world, nice to meet you"))
          [] "meta/llama3-70b-instruct" "hi").2.1, 0) :=
  cache_idempotence "meta/llama3-70b-instruct" "hi" "hello world, nice to meet you"
    [] [] (.payload (some "hello world, nice to meet you")) (.fail "network down")
    (by rfl) (by rfl)

/-- C10 (amended): cache write policy.  For the `P3` `callModel`, cache
writes are atomic with respect to failure exactly as claimed: every error
outcome (non-success status, abort, broken property chain, or a missing or
empty content) leaves the cache exactly as it was, and an entry — always an
extracted text — is written only on success.  For the `mlcontroler.js`
invokers (`generateWithNvidia` and `callModel`), a thrown failure likewise
leaves the cache unchanged, but the cache is written with exactly the
fulfilled value — including the `undefined` value of a payload whose
`choices[0].message` exists without a `content` field, which is the subject
of the counterexample. -/
theorem cache_write_policy (net : NetResult) (cache : List (String × String))
    (cacheML : List (String × Option String)) (model prompt : String) :
    ((callModelP3 net cache model prompt).2.1 =
      match (callModelP3 net cache model prompt).1 with
      | .error _ => cache
      | .ok t => cacheSet cache (cacheKeyB64 model prompt) t) ∧
    ((generateWithNvidia net cacheML model prompt).2.1 =
      match (generateWithNvidia net cacheML model prompt).1 with
      | .error _ => cacheML
      | .ok v => cacheSet cacheML (cacheKeyB64 model prompt) v) ∧
    ((callModelML net cacheML model prompt).2.1 =
      match (callModelML net cacheML model prompt).1 with
      | .error _ => cacheML
      | .ok v => cacheSet cacheML (cacheKeyML model prompt) v) := by
  refine ⟨?_, ?_, ?_⟩
  · cases hc : cacheGet cache (cacheKeyB64 model prompt) with
    | some v =>
        rw [callModelP3_hit net cache model prompt v hc]
        exact (cacheSet_self cache (cacheKeyB64 model prompt) v hc).symm
    | none =>
        cases net with
        | fail msg =>
            have e : callModelP3 (.fail msg) cache model prompt = (.error msg, cache, 1) := by
              unfold callModelP3; rw [hc]
            rw [e]
        | badChain =>
            have e : callModelP3 .badChain cache model prompt =
                (.error "Invalid response format from model", cache, 1) := by
              unfold callModelP3; rw [hc]
            rw [e]
        | payload content =>
            cases content with
            | none =>
                have e : callModelP3 (.payload none) cache model prompt =
                    (.error "Invalid response format from model", cache, 1) := by
                  unfold callModelP3; rw [hc]
                rw [e]
            | some c =>
                by_cases he : (c == "") = true
                · have e : callModelP3 (.payload (some c)) cache model prompt =
                      (.error "Invalid response format from model", cache, 1) := by
                    unfold callModelP3; rw [hc]; simp [he]
                  rw [e]
                · have e : callModelP3 (.payload (some c)) cache model prompt =
                      (.ok c, cacheSet cache (cacheKeyB64 model prompt) c, 1) := by
                    unfold callModelP3; rw [hc]; simp [he]
                  rw [e]
  · cases hc : cacheGet cacheML (cacheKeyB64 model prompt) with
    | some v =>
        rw [generateWithNvidia_hit net cacheML model prompt v hc]
        exact (cacheSet_self cacheML (cacheKeyB64 model prompt) v hc).symm
    | none =>
        cases net with
        | fail msg =>
            have e : generateWithNvidia (.fail msg) cacheML model prompt =
                (.error msg, cacheML, 1) := by
              unfold generateWithNvidia; rw [hc]
            rw [e]
        | badChain =>
            have e : generateWithNvidia .badChain cacheML model prompt =
                (.error "TypeError: cannot read properties of undefined", cacheML, 1) := by
              unfold generateWithNvidia; rw [hc]
            rw [e]
        | payload content =>
            have e : generateWithNvidia (.payload content) cacheML model prompt =
                (.ok content, cacheSet cacheML (cacheKeyB64 model prompt) content, 1) := by
              unfold generateWithNvidia; rw [hc]
            rw [e]
  · cases hc : cacheGet cacheML (cacheKeyML model prompt) with
    | some v =>
        rw [callModelML_hit net cacheML model prompt v hc]
        exact (cacheSet_self cacheML (cacheKeyML model prompt) v hc).symm
    | none =>
        cases net with
        | fail msg =>
            have e : callModelML (.fail msg) cacheML model prompt =
                (.error msg, cacheML, 1) := by
              unfold callModelML; rw [hc]
            rw [e]
        | badChain =>
            have e : callModelML .badChain cacheML model prompt =
                (.error "TypeError: cannot read properties of undefined", cacheML, 1) := by
              unfold callModelML; rw [hc]
            rw [e]
        | payload content =>
            have e : callModelML (.payload content) cacheML model prompt =
                (.ok content, cacheSet cacheML (cacheKeyML model prompt) content, 1) := by
              unfold callModelML; rw [hc]
            rw [e]

/-- Counterexample to C10 as stated: for `generateWithNvidia`, a 2xx payload
in which `choices[0].message` exists but `content` is absent throws nothing —
the `undefined` result is written to the cache, so the cache is not left as
it was before the attempt, and the no-text entry is replayed to a later
caller of the same (model, prompt) pair, even though that caller's own
network attempt would have returned real text. -/
theorem cache_write_policy_cex :
    (generateWithNvidia (.payload none) [] "meta/llama3-70b-instruct" "hi").2.1 =
      [(cacheKeyB64 "meta/llama3-70b-instruct" "hi", (none : Option String))] ∧
    ¬ (generateWithNvidia (.payload none) [] "meta/llama3-70b-instruct" "hi").2.1 = [] ∧
    (generateWithNvidia (.payload (some "a real answer"))
        (generateWithNvidia (.payload none) [] "meta/llama3-70b-instruct" "hi").2.1
        "meta/llama3-70b-instruct" "hi").1 = .ok none := by
  refine ⟨rfl, ?_, rfl⟩
  intro h
  have e : (generateWithNvidia (.payload none) [] "meta/llama3-70b-instruct" "hi").2.1 =
      [(cacheKeyB64 "meta/llama3-70b-instruct" "hi", (none : Option String))] := rfl
  rw [e] at h
  exact List.cons_ne_nil _ _ h

theorem expectedDelays_eq :
    ∀ (rem attempt : Nat), expectedDelays attempt rem =
      (List.range rem).map (fun k => retryDelay * (attempt + k + 1)) := by
  intro rem
  induction rem with
  | zero => intro attempt; rfl
  | succ r ih =>
      intro attempt
      show retryDelay * (attempt + 1) :: expectedDelays (attempt + 1) r =
        (List.range (r + 1)).map (fun k => retryDelay * (attempt + k + 1))
      rw [ih (attempt + 1), List.range_succ_eq_map, List.map_cons, List.map_map]
      simp only [List.cons.injEq]
      constructor
      · ring_nf
      · apply List.map_congr_left
        intro k _
        simp only [Function.comp_apply, Nat.succ_eq_add_one]
        ring

theorem retryGoP3_all_fail (net : Nat → NetResult) (model prompt : String)
    (e : Nat → String) (cache : List (String × String))
    (hmiss : cacheGet cache (cacheKeyB64 model prompt) = none)
    (hfail : ∀ i, net i = .fail (e i)) :
    ∀ remaining attempt, retryGoP3 net model prompt attempt remaining cache =
      (.error (e (attempt + remaining)), cache, remaining + 1,
        expectedDelays attempt remaining) := by
  intro remaining
  induction remaining with
  | zero =>
      intro attempt
      have ecall : callModelP3 (net attempt) cache model prompt =
          (.error (e attempt), cache, 1) := by
        rw [hfail attempt]; unfold callModelP3; rw [hmiss]
      unfold retryGoP3
      rw [ecall]
      show (Except.error (e attempt), cache, 1, ([] : List Nat)) =
        (Except.error (e (attempt + 0)), cache, 0 + 1, expectedDelays attempt 0)
      rfl
  | succ rem ih =>
      intro attempt
      have ecall : callModelP3 (net attempt) cache model prompt =
          (.error (e attempt), cache, 1) := by
        rw [hfail attempt]; unfold callModelP3; rw [hmiss]
      unfold retryGoP3
      rw [ecall]
      show (match retryGoP3 net model prompt (attempt + 1) rem cache with
        | (res, cache2, n, ds) => (res, cache2, n + 1, retryDelay * (attempt + 1) :: ds)) =
        (Except.error (e (attempt + (rem + 1))), cache, rem + 1 + 1,
          expectedDelays attempt (rem + 1))
      rw [ih (attempt + 1)]
      have harith : attempt + 1 + rem = attempt + (rem + 1) := by omega
      show (Except.error (e (attempt + 1 + rem)), cache, rem + 1 + 1,
          retryDelay * (attempt + 1) :: expectedDelays (attempt + 1) rem) =
        (Except.error (e (attempt + (rem + 1))), cache, rem + 1 + 1,
          expectedDelays attempt (rem + 1))
      rw [harith]
      rfl

theorem retryGoML_all_fail (net : Nat → NetResult) (model prompt : String)
    (e : Nat → String) (cache : List (String × Option String))
    (hmiss : cacheGet cache (cacheKeyML model prompt) = none)
    (hfail : ∀ i, net i = .fail (e i)) :
    ∀ remaining attempt, retryGoML net model prompt attempt remaining cache =
      (.error (e (attempt + remaining)), cache, remaining + 1,
        expectedDelays attempt remaining) := by
  intro remaining
  induction remaining with
  | zero =>
      intro attempt
      have ecall : callModelML (net attempt) cache model prompt =
          (.error (e attempt), cache, 1) := by
        rw [hfail attempt]; unfold callModelML; rw [hmiss]
      unfold retryGoML
      rw [ecall]
      show (Except.error (e attempt), cache, 1, ([] : List Nat)) =
        (Except.error (e (attempt + 0)), cache, 0 + 1, expectedDelays attempt 0)
      rfl
  | succ rem ih =>
      intro attempt
      have ecall : callModelML (net attempt) cache model prompt =
          (.error (e attempt), cache, 1) := by
        rw [hfail attempt]; unfold callModelML; rw [hmiss]
      unfold retryGoML
      rw [ecall]
      show (match retryGoML net model prompt (attempt + 1) rem cache with
        | (res, cache2, n, ds) => (res, cache2, n + 1, retryDelay * (attempt + 1) :: ds)) =
        (Except.error (e (attempt + (rem + 1))), cache, rem + 1 + 1,
          expectedDelays attempt (rem + 1))
      rw [ih (attempt + 1)]
      have harith : attempt + 1 + rem = attempt + (rem + 1) := by omega
      show (Except.error (e (attempt + 1 + rem)), cache, rem + 1 + 1,
          retryDelay * (attempt + 1) :: expectedDelays (attempt + 1) rem) =
        (Except.error (e (attempt + (rem + 1))), cache, rem + 1 + 1,
          expectedDelays attempt (rem + 1))
      rw [harith]
      rfl

/-- C5: retry bound.  If every attempt against a model fails (cache miss and
the network oracle fails every attempt), then `callModelWithRetry` (both
controllers) performs exactly `retries + 1` attempts, waits
`retryDelay * attemptNumber` (2000ms, linear) between consecutive attempts —
the delay list is `[2000*1, ..., 2000*retries]` — leaves the cache unchanged,
and propagates the error of the final attempt verbatim. -/
theorem retry_bound (net : Nat → NetResult) (model prompt : String)
    (e : Nat → String) (cache : List (String × String))
    (cacheML : List (String × Option String)) (retries : Nat)
    (hmiss1 : cacheGet cache (cacheKeyB64 model prompt) = none)
    (hmiss2 : cacheGet cacheML (cacheKeyML model prompt) = none)
    (hfail : ∀ i, net i = .fail (e i)) :
    callModelWithRetry net cache model prompt retries =
      (.error (e retries), cache, retries + 1,
        (List.range retries).map (fun k => retryDelay * (k + 1))) ∧
    callModelWithRetryML net cacheML model prompt retries =
      (.error (e retries), cacheML, retries + 1,
        (List.range retries).map (fun k => retryDelay * (k + 1))) := by
  constructor
  · unfold callModelWithRetry
    rw [retryGoP3_all_fail net model prompt e cache hmiss1 hfail retries 0,
      expectedDelays_eq retries 0]
    simp
  · unfold callModelWithRetryML
    rw [retryGoML_all_fail net model prompt e cacheML hmiss2 hfail retries 0,
      expectedDelays_eq retries 0]
    simp

/-- Witness for C5: three total attempts (`retries = 2`) against a permanently
failing backend, with delays 2000 and 4000 between them. -/
theorem retry_bound_witness :
    callModelWithRetry (fun _ => .fail "boom") [] "google/gemma-7b" "hi" 2 =
      (.error "boom", [], 2 + 1, (List.range 2).map (fun k => retryDelay * (k + 1))) ∧
    callModelWithRetryML (fun _ => .fail "boom") [] "google/gemma-7b" "hi" 2 =
      (.error "boom", [], 2 + 1, (List.range 2).map (fun k => retryDelay * (k + 1))) :=
  retry_bound (fun _ => .fail "boom") "google/gemma-7b" "hi" (fun _ => "boom") [] [] 2
    (by rfl) (by rfl) (fun _ => rfl)

theorem filterMap_model_sublist (g : String → Option Candidate)
    (hg : ∀ m c, g m = some c → c.model = m) :
    ∀ l : List String, ((l.filterMap g).map Candidate.model).Sublist l := by
  intro l
  induction l with
  | nil => simp
  | cons m rest ih =>
      rw [List.filterMap_cons]
      cases hgm : g m with
      | none => exact ih.cons m
      | some c =>
          rw [List.map_cons, hg m c hgm]
          exact ih.cons₂ m

/-- C2: for every prompt, network behavior and starting cache, the fan-out
(both the `P3` `getModelResponses` and the inline fan-out of the `ML`
`judgeAndGenerate`) is a total function of the settled outcomes of all
registry models — an individual model failure never fails it — and it returns
between 0 and N candidates whose model IDs form a sublist of the registry:
drawn from the registry and in registry declaration order. -/
theorem gatherCandidates_bounds (prompt : String)
    (net : String → Nat → NetResult) (cache : List (String × String))
    (cacheML : List (String × Option String)) :
    (getModelResponses prompt net cache).length ≤ MODEL_LIST.length ∧
    ((getModelResponses prompt net cache).map Candidate.model).Sublist MODEL_LIST ∧
    (candidatesML prompt net cacheML).length ≤ MODEL_LIST.length ∧
    ((candidatesML prompt net cacheML).map Candidate.model).Sublist MODEL_LIST := by
  have h1 : ((getModelResponses prompt net cache).map Candidate.model).Sublist MODEL_LIST := by
    unfold getModelResponses
    refine List.Sublist.trans (List.Sublist.map Candidate.model (List.filter_sublist _)) ?_
    apply filterMap_model_sublist
    intro m c h
    cases hr : (callModelWithRetry (net m) cache m prompt maxRetries).1 with
    | ok v =>
        rw [hr] at h
        simp only [Option.some.injEq] at h
        subst h
        rfl
    | error e =>
        rw [hr] at h
        simp at h
  have h2 : ((candidatesML prompt net cacheML).map Candidate.model).Sublist MODEL_LIST := by
    unfold candidatesML
    apply filterMap_model_sublist
    intro m c h
    cases hr : (callModelWithRetryML (net m) cacheML m prompt 2).1 with
    | ok v =>
        cases v with
        | none =>
            rw [hr] at h
            simp at h
        | some v =>
            rw [hr] at h
            by_cases he : (v == "") = true
            · simp [he] at h
            · simp only [he, Bool.false_eq_true, if_false, Option.some.injEq] at h
              subst h
              rfl
    | error e =>
        rw [hr] at h
        simp at h
  refine ⟨?_, h1, ?_, h2⟩
  · have := h1.length_le
    simpa using this
  · have := h2.length_le
    simpa using this

theorem getD_mem_of_lt (l : List Candidate) (i : Nat) (h : i < l.length) :
    l.getD i default ∈ l := by
  rw [List.getD_eq_getElem?_getD, List.getElem?_eq_getElem h, Option.getD_some]
  exact List.getElem_mem h

/-- C7: the judge is purely advisory.  For every non-empty candidate list and
every judge oracle behavior — failure, timeout, or a reply with no parseable
index — `judgeResponses` (both variants) is total and returns a candidate
from the supplied list: the `P3` variant falls back to the first candidate
via `weightedRandomSelect`, the `ML` variant to a uniformly random one. -/
theorem judge_failure_fallback (prompt : String) (cands : List Candidate)
    (oracle : String → Except String (Option String)) (r : ℚ)
    (hne : cands ≠ []) (h0 : 0 ≤ r) (hr : r < 1) :
    judgeResponsesP3 prompt cands oracle r ∈ cands ∧
    judgeResponsesML prompt cands oracle r ∈ cands := by
  have hn : 1 ≤ cands.length := List.length_pos.mpr hne
  constructor
  · unfold judgeResponsesP3
    cases oracle (judgePromptP3 prompt cands) with
    | ok payload =>
        obtain ⟨hlo, hhi⟩ :=
          parseBestIndexP3_range (payload.getD "") cands.length r hn h0 hr
        apply getD_mem_of_lt
        omega
    | error e =>
        unfold weightedRandomSelect
        apply getD_mem_of_lt
        omega
  · unfold judgeResponsesML
    cases oracle (judgePromptML prompt cands) with
    | ok payload =>
        obtain ⟨hlo, hhi⟩ :=
          parseBestIndexML_range (payload.getD "") cands.length r hn h0 hr
        apply getD_mem_of_lt
        omega
    | error e =>
        obtain ⟨hlo, hhi⟩ := randomIndex_range r cands.length hn h0 hr
        apply getD_mem_of_lt
        omega

/-- Witness for C7: a single candidate, a failing judge oracle, draw 1/2. -/
theorem judge_failure_fallback_witness :
    judgeResponsesP3 "q" [⟨"meta/llama3-70b-instruct", "some long answer text"⟩]
        (fun _ => .error "judge down") (1/2) ∈
      [(⟨"meta/llama3-70b-instruct", "some long answer text"⟩ : Candidate)] ∧
    judgeResponsesML "q" [⟨"meta/llama3-70b-instruct", "some long answer text"⟩]
        (fun _ => .error "judge down") (1/2) ∈
      [(⟨"meta/llama3-70b-instruct", "some long answer text"⟩ : Candidate)] :=
  judge_failure_fallback "q" [⟨"meta/llama3-70b-instruct", "some long answer text"⟩]
    (fun _ => .error "judge down") (1/2) (by decide) (by norm_num) (by norm_num)

/-- C3 (amended): when the fan-out yields zero surviving candidates for a
valid prompt, the judge route is a distinct terminal condition with no
`bestResponse` field — but the two variants disagree on the status: the `P3`
controller responds 503 (service unavailable), while `mlcontroler.js`
responds 500. -/
theorem all_failed_terminal (p : String) (net : String → Nat → NetResult)
    (cache : List (String × String)) (cacheML : List (String × Option String))
    (oracle : String → Except String (Option String)) (r : ℚ)
    (hp : ¬ jsTrimS p = "")
    (h1 : getModelResponses p net cache = [])
    (h2 : candidatesML p net cacheML = []) :
    (judgeAndGenerateP3 (some p) net cache oracle r).1.status = 503 ∧
    (judgeAndGenerateP3 (some p) net cache oracle r).1.bestResponse = none ∧
    (judgeAndGenerateML (some p) net cacheML oracle r).1.status = 500 ∧
    (judgeAndGenerateML (some p) net cacheML oracle r).1.bestResponse = none := by
  have hpe : ¬ p = "" := by
    intro he
    apply hp
    rw [he]
    rfl
  have c1 : (jsTrimS p == "") = false := beq_eq_false_iff_ne.mpr hp
  have c2 : (p == "") = false := beq_eq_false_iff_ne.mpr hpe
  refine ⟨?_, ?_, ?_, ?_⟩ <;>
    simp [judgeAndGenerateP3, judgeAndGenerateML, c1, c2, h1, h2]

/-- Witness for C3 (amended): prompt `"hello"`, every provider down. -/
theorem all_failed_terminal_witness :
    (judgeAndGenerateP3 (some "hello") (fun _ _ => .fail "down") []
        (fun _ => .error "unused") (1/2)).1.status = 503 ∧
    (judgeAndGenerateP3 (some "hello") (fun _ _ => .fail "down") []
        (fun _ => .error "unused") (1/2)).1.bestResponse = none ∧
    (judgeAndGenerateML (some "hello") (fun _ _ => .fail "down") []
        (fun _ => .error "unused") (1/2)).1.status = 500 ∧
    (judgeAndGenerateML (some "hello") (fun _ _ => .fail "down") []
        (fun _ => .error "unused") (1/2)).1.bestResponse = none :=
  all_failed_terminal "hello" (fun _ _ => .fail "down") [] [] (fun _ => .error "unused")
    (1/2) (by decide) (by rfl) (by rfl)

/-- Counterexample to C3 as stated: on the `mlcontroler.js` judge route, with
a valid prompt and zero surviving candidates, the response status is 500 —
not the claimed 503. -/
theorem all_failed_terminal_cex :
    candidatesML "hello" (fun _ _ => .fail "down") [] = [] ∧
    (judgeAndGenerateML (some "hello") (fun _ _ => .fail "down") []
        (fun _ => .error "unused") 0).1.status = 500 ∧
    ¬ (judgeAndGenerateML (some "hello") (fun _ _ => .fail "down") []
        (fun _ => .error "unused") 0).1.status = 503 := by
  refine ⟨by rfl, by rfl, ?_⟩
  intro h
  have e : (judgeAndGenerateML (some "hello") (fun _ _ => .fail "down") []
      (fun _ => .error "unused") 0).1.status = 500 := by rfl
  rw [e] at h
  exact absurd h (by norm_num)

/-- C9 (amended): the `P3` judge route and `llmController` reject an absent
or blank (whitespace-only) prompt with a 400 client error before performing
any work: no effects, cache untouched.  The `mlcontroler.js` judge route
rejects only an absent or empty prompt this way — its whitespace handling is
the subject of the counterexample. -/
theorem prompt_validation (p : String) (net : String → Nat → NetResult)
    (cache : List (String × String)) (cacheML : List (String × Option String))
    (oracle : String → Except String (Option String)) (r : ℚ)
    (analysisOut : Except String Requirements) (genNet : NetResult)
    (hblank : jsTrimS p = "") :
    (judgeAndGenerateP3 (some p) net cache oracle r).1.status = 400 ∧
    (judgeAndGenerateP3 (some p) net cache oracle r).2 = [] ∧
    (judgeAndGenerateP3 none net cache oracle r).1.status = 400 ∧
    (judgeAndGenerateP3 none net cache oracle r).2 = [] ∧
    (llmController (some p) analysisOut genNet cacheML).1.status = 400 ∧
    (llmController (some p) analysisOut genNet cacheML).2.1 = cacheML ∧
    (llmController (some p) analysisOut genNet cacheML).2.2 = [] ∧
    (llmController none analysisOut genNet cacheML).1.status = 400 ∧
    (llmController none analysisOut genNet cacheML).2.1 = cacheML ∧
    (llmController none analysisOut genNet cacheML).2.2 = [] ∧
    (judgeAndGenerateML (some "") net cacheML oracle r).1.status = 400 ∧
    (judgeAndGenerateML (some "") net cacheML oracle r).2 = [] ∧
    (judgeAndGenerateML none net cacheML oracle r).1.status = 400 ∧
    (judgeAndGenerateML none net cacheML oracle r).2 = [] := by
  have c1 : (jsTrimS p == "") = true := beq_iff_eq.mpr hblank
  refine ⟨?_, ?_, ?_, ?_, ?_, ?_, ?_, ?_, ?_, ?_, ?_, ?_, ?_, ?_⟩ <;>
    simp [judgeAndGenerateP3, judgeAndGenerateML, llmController, c1]

/-- Witness for C9 (amended): the whitespace-only prompt `" "`. -/
theorem prompt_validation_witness :
    (judgeAndGenerateP3 (some " ") (fun _ _ => .fail "down") []
        (fun _ => .error "u") (1/2)).1.status = 400 ∧
    (judgeAndGenerateP3 (some " ") (fun _ _ => .fail "down") []
        (fun _ => .error "u") (1/2)).2 = [] ∧
    (judgeAndGenerateP3 none (fun _ _ => .fail "down") []
        (fun _ => .error "u") (1/2)).1.status = 400 ∧
    (judgeAndGenerateP3 none (fun _ _ => .fail "down") []
        (fun _ => .error "u") (1/2)).2 = [] ∧
    (llmController (some " ") (.error "a") (.fail "g") []).1.status = 400 ∧
    (llmController (some " ") (.error "a") (.fail "g") []).2.1 = [] ∧
    (llmController (some " ") (.error "a") (.fail "g") []).2.2 = [] ∧
    (llmController none (.error "a") (.fail "g") []).1.status = 400 ∧
    (llmController none (.error "a") (.fail "g") []).2.1 = [] ∧
    (llmController none (.error "a") (.fail "g") []).2.2 = [] ∧
    (judgeAndGenerateML (some "") (fun _ _ => .fail "down") []
        (fun _ => .error "u") (1/2)).1.status = 400 ∧
    (judgeAndGenerateML (some "") (fun _ _ => .fail "down") []
        (fun _ => .error "u") (1/2)).2 = [] ∧
    (judgeAndGenerateML none (fun _ _ => .fail "down") []
        (fun _ => .error "u") (1/2)).1.status = 400 ∧
    (judgeAndGenerateML none (fun _ _ => .fail "down") []
        (fun _ => .error "u") (1/2)).2 = [] :=
  prompt_validation " " (fun _ _ => .fail "down") [] [] (fun _ => .error "u") (1/2)
    (.error "a") (.fail "g") (by decide)

/-- Counterexample to C9 as stated: a whitespace-only prompt is not rejected
by the `mlcontroler.js` judge route — the fan-out of model calls is
performed (the effect list is non-empty) and the response is not a 400. -/
theorem prompt_validation_cex :
    ¬ (judgeAndGenerateML (some " ") (fun _ _ => .fail "down") []
        (fun _ => .error "unused") 0).1.status = 400 ∧
    (judgeAndGenerateML (some " ") (fun _ _ => .fail "down") []
        (fun _ => .error "unused") 0).2 = [Effect.fanout] := by
  constructor
  · intro h
    have e : (judgeAndGenerateML (some " ") (fun _ _ => .fail "down") []
        (fun _ => .error "unused") 0).1.status = 500 := by rfl
    rw [e] at h
    exact absurd h (by norm_num)
  · rfl

/-- C8 (amended): the `mlcontroler.js` `parseBestIndex` extracts the first
run of digits (without any stripping) and clamps it, so on the literal judge
reply "I think option 1 is best" with at least 2 candidates it returns index
1 deterministically, for any random draw; the `P3` parser is the subject of
the counterexample. -/
theorem parse_wrapper_tolerance (n : Nat) (r : ℚ) (hn : 2 ≤ n) :
    parseBestIndexML "I think option 1 is best" n r = 1 := by
  unfold parseBestIndexML
  have hrun : firstDigitRun "I think option 1 is best".data = some ['1'] := by decide
  rw [hrun]
  show max 0 (min (digitsToNat ['1'] : ℤ) ((n : ℤ) - 1)) = 1
  have hdig : digitsToNat ['1'] = 1 := by decide
  rw [hdig]
  have h2 : (2 : ℤ) ≤ (n : ℤ) := by exact_mod_cast hn
  simp only [Nat.cast_one]
  rw [min_eq_left (by omega), max_eq_right (by omega)]

/-- Witness for C8 (amended): two candidates, random draw 1/2. -/
theorem parse_wrapper_tolerance_witness :
    parseBestIndexML "I think option 1 is best" 2 (1/2) = 1 :=
  parse_wrapper_tolerance 2 (1/2) (by norm_num)

/-- Counterexample to C8 as stated: the parser that does strip quoting and
the option label — the `P3` `parseBestIndex` — accepts only an all-digit
cleaned text, so on the literal reply "I think option 1 is best" it does not
extract 1: the parse failure falls back to a random index, which is 0 at
draw r = 0 (two candidates). -/
theorem parse_wrapper_tolerance_cex :
    parseBestIndexP3 "I think option 1 is best" 2 0 = 0 ∧
    ¬ parseBestIndexP3 "I think option 1 is best" 2 0 = 1 := by
  have hcond : (!(cleanJudgeText "I think option 1 is best").isEmpty &&
      (cleanJudgeText "I think option 1 is best").all Char.isDigit) = false := by decide
  have e : parseBestIndexP3 "I think option 1 is best" 2 0 = randomIndex 0 2 := by
    unfold parseBestIndexP3
    simp only [hcond, Bool.false_eq_true, if_false]
  have hz : randomIndex 0 2 = 0 := by
    unfold randomIndex
    rw [zero_mul]
    exact Int.floor_zero
  rw [e, hz]
  exact ⟨rfl, by norm_num⟩

theorem selectFold_spec (req : Requirements) :
    ∀ (l : List (String × Benchmarks)) (b : ℚ) (m : String),
      (l.foldl (selectStep req) (some (b, m)) = some (b, m) ∧
        ∀ x ∈ l, modelScore req x.2 ≤ b) ∨
      (∃ pre entry post s,
        l = pre ++ entry :: post ∧
        l.foldl (selectStep req) (some (b, m)) = some (s, entry.1) ∧
        s = modelScore req entry.2 ∧ b < s ∧
        (∀ x ∈ pre, modelScore req x.2 < s) ∧
        (∀ x ∈ post, modelScore req x.2 ≤ s)) := by
  intro l
  induction l with
  | nil =>
      intro b m
      left
      exact ⟨rfl, by simp⟩
  | cons e rest ih =>
      intro b m
      by_cases hgt : modelScore req e.2 > b
      · have hstep : selectStep req (some (b, m)) e = some (modelScore req e.2, e.1) := by
          unfold selectStep
          simp [hgt]
        rw [List.foldl_cons, hstep]
        rcases ih (modelScore req e.2) e.1 with ⟨heq, hall⟩ |
          ⟨pre, entry, post, s, hsplit, heq, hs, hlt, hpre, hpost⟩
        · right
          exact ⟨[], e, rest, modelScore req e.2, by simp, heq, rfl, hgt, by simp, hall⟩
        · right
          refine ⟨e :: pre, entry, post, s, by simp [hsplit], heq, hs,
            lt_trans hgt hlt, ?_, hpost⟩
          intro x hx
          rcases List.mem_cons.mp hx with hx | hx
          · rw [hx]; exact hlt
          · exact hpre x hx
      · have hstep : selectStep req (some (b, m)) e = some (b, m) := by
          unfold selectStep
          simp [hgt]
        rw [List.foldl_cons, hstep]
        rcases ih b m with ⟨heq, hall⟩ |
          ⟨pre, entry, post, s, hsplit, heq, hs, hlt, hpre, hpost⟩
        · left
          refine ⟨heq, ?_⟩
          intro x hx
          rcases List.mem_cons.mp hx with hx | hx
          · rw [hx]; exact not_lt.mp hgt
          · exact hall x hx
        · right
          refine ⟨e :: pre, entry, post, s, by simp [hsplit], heq, hs, hlt, ?_, hpost⟩
          intro x hx
          rcases List.mem_cons.mp hx with hx | hx
          · rw [hx]; exact lt_of_le_of_lt (not_lt.mp hgt) hlt
          · exact hpre x hx

/-- C6: `selectOptimalModel` returns, for every requirements vector, the
registry model with the strictly highest weighted score (as computed by
`modelScore`), ties resolving to the earlier model in registry order — the
returned model is the first entry whose score no other entry exceeds and
every earlier entry scores strictly lower; over an empty registry it falls
back to the fixed default; and on the scenario requirements
`{coding := 90, reasoning := 40, math := 30, context := 20}` it returns the
model with coding benchmark 94.2, `deepseek-ai/deepseek-r1-distill-llama-8b`. -/
theorem selectOptimalModel_spec :
    (∀ req : Requirements, ∃ pre entry post,
        EXPERT_MODELS = pre ++ entry :: post ∧
        selectOptimalModel req = entry.1 ∧
        (∀ x ∈ pre, modelScore req x.2 < modelScore req entry.2) ∧
        (∀ x ∈ EXPERT_MODELS, modelScore req x.2 ≤ modelScore req entry.2)) ∧
    (∀ req : Requirements, selectOptimalModelOver [] req = "meta/llama3-70b-instruct") ∧
    selectOptimalModel ⟨90, 40, 30, 20⟩ = "deepseek-ai/deepseek-r1-distill-llama-8b" := by
  refine ⟨?_, fun req => rfl, ?_⟩
  · intro req
    obtain ⟨e0, rest, hlist⟩ : ∃ e0 rest, EXPERT_MODELS = e0 :: rest :=
      ⟨_, _, rfl⟩
    have hstep0 : selectStep req none e0 = some (modelScore req e0.2, e0.1) := rfl
    rcases selectFold_spec req rest (modelScore req e0.2) e0.1 with ⟨heq, hall⟩ |
      ⟨pre, entry, post, s, hsplit, heq, hs, hlt, hpre, hpost⟩
    · refine ⟨[], e0, rest, by simp [hlist], ?_, by simp, ?_⟩
      · unfold selectOptimalModel selectOptimalModelOver
        rw [hlist, List.foldl_cons, hstep0, heq]
      · intro x hx
        rw [hlist] at hx
        rcases List.mem_cons.mp hx with hx | hx
        · rw [hx]
        · exact hall x hx
    · refine ⟨e0 :: pre, entry, post, by simp [hlist, hsplit], ?_, ?_, ?_⟩
      · unfold selectOptimalModel selectOptimalModelOver
        rw [hlist, List.foldl_cons, hstep0, heq]
      · intro x hx
        rw [← hs]
        rcases List.mem_cons.mp hx with hx | hx
        · rw [hx]; exact hlt
        · exact hpre x hx
      · intro x hx
        rw [hlist] at hx
        rw [← hs]
        rcases List.mem_cons.mp hx with hx | hx
        · rw [hx]; exact le_of_lt hlt
        · rw [hsplit] at hx
          rcases List.mem_append.mp hx with hx | hx
          · exact le_of_lt (hpre x hx)
          · rcases List.mem_cons.mp hx with hx | hx
            · rw [hx, hs]
            · exact hpost x hx
  · norm_num [selectOptimalModel, selectOptimalModelOver, EXPERT_MODELS, selectStep,
      modelScore, min_def]

end LLMFusion
